import Mathlib

/-
  Verification development for the anime-launcher-sdk repository.

  The definitions below are shallow embeddings of the Rust sources:
  - src/components/wine.rs       (Wine namespace)
  - src/components/dxvk.rs       (Dxvk namespace)
  - src/components/loader.rs     (Loader namespace, over a Json model)
  - src/integrations/steam.rs    (Steam namespace)
  - src/games/genshin/states.rs  (Genshin namespace)
  - src/games/honkai/states.rs   (Honkai namespace)

  Fallible Rust code (anyhow::Result) is embedded as Except String;
  panics (unwrap / expect / out-of-bounds indexing) are embedded as a
  distinguished failure constructor so that "returns an error" and
  "panics" are separate observable outcomes.
-/

namespace Wine

/-- Embeds enum Bundle from src/components/wine.rs. -/
inductive Bundle
  | proton
deriving DecidableEq, Repr

/-- Embeds struct Features from src/components/wine.rs.
The env HashMap is embedded as an association list. -/
structure Features where
  bundle : Option Bundle
  need_dxvk : Bool
  compact_launch : Bool
  prefixSubdir : Option String
  command : Option String
  env : List (String × String)
deriving DecidableEq, Repr

/-- Embeds impl Default for Features (src/components/wine.rs lines 77-88). -/
def Features.default : Features :=
  { bundle := none
  , need_dxvk := true
  , compact_launch := false
  , prefixSubdir := none
  , command := none
  , env := [] }

/-- Embeds struct Files from src/components/wine.rs. -/
structure Files where
  wine : String
  wine64 : Option String
  wineserver : Option String
  wineboot : Option String
  winecfg : Option String
deriving DecidableEq, Repr

/-- Embeds struct Version from src/components/wine.rs. -/
structure Version where
  name : String
  title : String
  uri : String
  files : Files
  managed : Bool
  features : Option Features
deriving DecidableEq, Repr

/-- Embeds struct Group from src/components/wine.rs. -/
structure Group where
  name : String
  title : String
  features : Option Features
  versions : List Version
  managed : Bool
deriving DecidableEq, Repr

/-- Embeds Version::features_in (src/components/wine.rs lines 217-229):
returns this version's features if they persist, or the group's features
otherwise. -/
def Version.features_in (v : Version) (group : Group) : Option Features :=
  if v.features.isSome then
    v.features
  else if let some features := group.features then
    some features
  else
    none

/-- Outcome of a fallible computation that may also panic: an anyhow
error (err) or a Rust panic (panicked). -/
inductive Fail
  | err (msg : String)
  | panicked (msg : String)
deriving DecidableEq, Repr

/-- Embeds Version::latest (src/components/wine.rs lines 157-160):
get_groups(components)?[0].versions[0].clone(). The two indexing
operations panic when out of bounds; the groups argument models the
result of get_groups(components) with the question-mark operator. -/
def Version.latest (groups : Except String (List Group)) : Except Fail Version :=
  match groups with
  | .error e => .error (.err e)
  | .ok gs =>
    match gs.head? with
    | none => .error (.panicked "index out of bounds")
    | some g =>
      match g.versions.head? with
      | none => .error (.panicked "index out of bounds")
      | some v => .ok v

/-- Embeds get_downloaded (src/components/wine.rs lines 406-428) over a
loaded group list; folderHas models folder.join(name).exists(). -/
def get_downloaded (groups : List Group) (folderHas : String → Bool) : List Group :=
  match groups with
  | [] => []
  | group :: rest =>
    if group.managed = true then
      group :: get_downloaded rest folderHas
    else
      let filtered := { group with versions := group.versions.filter (fun v => folderHas v.name) }
      if filtered.versions.isEmpty then
        get_downloaded rest folderHas
      else
        filtered :: get_downloaded rest folderHas

end Wine

namespace Dxvk

/-- Embeds struct Version from src/components/dxvk.rs. -/
structure Version where
  name : String
  version : String
  uri : String
  recommended : Bool
deriving DecidableEq, Repr

/-- Embeds struct Group from src/components/dxvk.rs. -/
structure Group where
  name : String
  versions : List Version
deriving DecidableEq, Repr

/-- Embeds Version::latest (src/components/dxvk.rs lines 34-37):
get_groups()[0].versions[0].clone(); both indexings panic when out of
bounds. getGroups models the statically loaded GROUPS list. -/
def Version.latest (getGroups : List Group) : Except Wine.Fail Version :=
  match getGroups.head? with
  | none => .error (.panicked "index out of bounds")
  | some g =>
    match g.versions.head? with
    | none => .error (.panicked "index out of bounds")
    | some v => .ok v

end Dxvk

namespace Steam

/-- Embeds the Features struct as used by src/integrations/steam.rs
(this revision carries a managed_prefix field in addition to the fields
of src/components/wine.rs); unset fields take the Default values. -/
structure Features where
  bundle : Option Wine.Bundle
  need_dxvk : Bool
  compact_launch : Bool
  command : Option String
  managed_prefix : Option String
  env : List (String × String)
deriving DecidableEq, Repr

/-- Default Features values (impl Default, mirrored from
src/components/wine.rs lines 77-88). -/
def Features.default : Features :=
  { bundle := none
  , need_dxvk := true
  , compact_launch := false
  , command := none
  , managed_prefix := none
  , env := [] }

/-- Embeds the Files struct as constructed by src/integrations/steam.rs
line 201. -/
structure Files where
  wine : String
  wine64 : Option String
  wineserver : Option String
  wineboot : Option String
deriving DecidableEq, Repr

/-- Embeds the wine Version struct as constructed by
src/integrations/steam.rs lines 196-210. -/
structure Version where
  name : String
  title : String
  uri : String
  format : Option Unit
  files : Files
  features : Option Features
  managed : Bool
deriving DecidableEq, Repr

/-- Embeds the wine Group struct as constructed by
src/integrations/steam.rs lines 219-225. -/
structure Group where
  name : String
  title : String
  features : Option Features
  versions : List Version
  managed : Bool
deriving DecidableEq, Repr

/-- A candidate directory inside a search root, as observed by the
filesystem probes of src/integrations/steam.rs: is_dir, is_symlink,
join("proton").exists(), the result of reading its version file,
file_name().to_str() and path.to_str(). -/
structure Candidate where
  isDir : Bool
  isSymlink : Bool
  hasProton : Bool
  versionFile : Except String String
  dirName : Option String
  pathStr : Option String
deriving Repr

/-- A search root (a Steam library common folder or
compatibilitytools.d) with its filesystem observations. -/
structure Root where
  pathExists : Bool
  isDir : Bool
  entries : List Candidate
deriving Repr

/-- The external environment of the discovery run: SteamDir::locate
derived search roots (None when Steam's install cannot be located) and
the STEAM_COMPAT_DATA_PATH environment variable. -/
structure Env where
  searchRoots : Option (List Root)
  compatDataPath : Option String
deriving Repr

/-- Embeds check_pld (src/integrations/steam.rs lines 102-111): keep a
candidate only when it is a directory, not a symlink, and contains a
proton entry. -/
def check_pld (pld : Candidate) : Option Candidate :=
  match pld.isDir && !pld.isSymlink && pld.hasProton with
  | true => some pld
  | false => none

/-- Embeds check_root (src/integrations/steam.rs lines 113-124): filter
the entries of a root that exists and is a directory; otherwise the
empty list. Always returns Some. -/
def check_root (local' : Root) : Option (List Candidate) :=
  some (if local'.pathExists && local'.isDir then
          local'.entries.filterMap check_pld
        else
          [])

/-- Embeds filter_local_roots_by_proton_launcher
(src/integrations/steam.rs lines 127-141): concatenates the filtered
entries of every search root; returns Some unconditionally, the empty
list when no roots were located. -/
def filter_local_roots_by_proton_launcher (env : Env) : Option (List Candidate) :=
  some (match env.searchRoots with
        | none => []
        | some locals => locals.foldl (fun acc l => acc ++ ((check_root l).getD [])) [])

/-- Embeds str::trim over the character list: drop leading and trailing
whitespace. -/
def trimChars (cs : List Char) : List Char :=
  ((cs.dropWhile Char.isWhitespace).reverse.dropWhile Char.isWhitespace).reverse

/-- Embeds str::trim. -/
def trim (s : String) : String :=
  String.mk (trimChars s.data)

/-- Splits a character list at the first space. -/
def splitOnceChars : List Char → Option (List Char × List Char)
  | [] => none
  | c :: rest =>
    if c = ' ' then
      some ([], rest)
    else
      match splitOnceChars rest with
      | some (a, b) => some (c :: a, b)
      | none => none

/-- Embeds str::split_once(" "): split a string at the first space into
the part before and the part after, or None when no space occurs. -/
def splitOnceSpace (s : String) : Option (String × String) :=
  match splitOnceChars s.data with
  | some (a, b) => some (String.mk a, String.mk b)
  | none => none

/-- Embeds get_split_names (src/integrations/steam.rs lines 143-173):
reads the candidate version file (expect panics when the read fails),
splits it on the first space; when the part after the space is non-empty
and the directory name is available, yields the trimmed directory name
and trimmed remainder, otherwise (None, None). -/
def get_split_names (path : Candidate) : Except Wine.Fail (Option String × Option String) :=
  match path.versionFile with
  | .error _ => .error (.panicked "Should have been able to read the file")
  | .ok content =>
    match splitOnceSpace content with
    | some (_sz, protonName) =>
      match protonName.isEmpty with
      | false =>
        match path.dirName with
        | some pathName => .ok (some (trim pathName), some (trim protonName))
        | none => .ok (none, none)
      | true => .ok (none, none)
    | none => .ok (none, none)

/-- The fixed Proton features profile built at
src/integrations/steam.rs lines 179-188. -/
def proton_features (env : Env) : Features :=
  { Features.default with
    bundle := some Wine.Bundle.proton
  , compact_launch := true
  , command := some "python3 \x27%build%/proton\x27 waitforexitandrun"
  , managed_prefix := env.compatDataPath }

/-- Embeds the version-collection loop of get_proton_installs_as_wines
(src/integrations/steam.rs lines 189-217): for each candidate, split
names; push a managed Version when both parts are present (panicking
when path.to_str() is None), otherwise continue. -/
def collect_wines (paths : List Candidate) (feats : Features) : Except Wine.Fail (List Version) :=
  match paths with
  | [] => .ok []
  | path :: rest =>
    match get_split_names path with
    | .error e => .error e
    | .ok (t, n) =>
      match n with
      | some wineName =>
        match t with
        | some wineTitle =>
          match path.pathStr with
          | some p =>
            match collect_wines rest feats with
            | .error e => .error e
            | .ok others =>
              .ok ({ name := wineName
                   , title := wineTitle
                   , uri := trim p
                   , format := none
                   , files := { wine := "proton", wine64 := none, wineserver := none, wineboot := none }
                   , features := some feats
                   , managed := true } :: others)
          | none => .error (.panicked "called Option unwrap on a None value")
        | none => collect_wines rest feats
      | none => collect_wines rest feats

/-- Embeds get_proton_installs_as_wines (src/integrations/steam.rs lines
176-230): on Some paths, synthesize the single steam-proton group; on
None, the anyhow error (unreachable since the filter always returns
Some). -/
def get_proton_installs_as_wines (env : Env) : Except Wine.Fail (List Group) :=
  match filter_local_roots_by_proton_launcher env with
  | some paths =>
    let feats := proton_features env
    match collect_wines paths feats with
    | .error e => .error e
    | .ok wines =>
      .ok [ { name := "steam-proton"
            , title := "Proton Runners via Steam"
            , features := some feats
            , versions := wines
            , managed := true } ]
  | none => .error (.err "Steam mode active but no roots?")

end Steam

namespace Loader

/-- A model of serde_json::Value. Numbers are embedded as integers and
objects as association lists. -/
inductive Json
  | null
  | bool (b : Bool)
  | num (n : Int)
  | str (s : String)
  | arr (xs : List Json)
  | obj (kvs : List (String × Json))
deriving Repr

/-- Embeds serde_json Value::get with a string key: Some for a present
key of an object, None otherwise. -/
def Json.get (j : Json) (key : String) : Option Json :=
  match j with
  | .obj kvs => (kvs.find? (fun kv => kv.1 = key)).map (fun kv => kv.2)
  | _ => none

/-- Embeds serde_json shared indexing value[key]: the entry of an
object, Null for a missing key or a non-object. -/
def Json.index (j : Json) (key : String) : Json :=
  (j.get key).getD .null

/-- Embeds Value::as_str. -/
def Json.asStr (j : Json) : Option String :=
  match j with
  | .str s => some s
  | _ => none

/-- Embeds Value::as_bool. -/
def Json.asBool (j : Json) : Option Bool :=
  match j with
  | .bool b => some b
  | _ => none

/-- Embeds Value::as_array. -/
def Json.asArray (j : Json) : Option (List Json) :=
  match j with
  | .arr xs => some xs
  | _ => none

/-- Embeds Value::as_object. -/
def Json.asObject (j : Json) : Option (List (String × Json)) :=
  match j with
  | .obj kvs => some kvs
  | _ => none

mutual

/-- Embeds Value::to_string (the JSON rendering used when a non-string
env entry is stringified); escaping of special characters inside string
literals is not modelled. -/
def Json.render : Json → String
  | .null => "null"
  | .bool true => "true"
  | .bool false => "false"
  | .num n => toString n
  | .str s => "\"" ++ s ++ "\""
  | .arr xs => "[" ++ Json.renderList xs ++ "]"
  | .obj kvs => "\x7b" ++ Json.renderObj kvs ++ "\x7d"

/-- Renders the elements of a JSON array, comma separated. -/
def Json.renderList : List Json → String
  | [] => ""
  | [x] => Json.render x
  | x :: xs => Json.render x ++ "," ++ Json.renderList xs

/-- Renders the entries of a JSON object, comma separated. -/
def Json.renderObj : List (String × Json) → String
  | [] => ""
  | [(k, v)] => "\"" ++ k ++ "\":" ++ Json.render v
  | (k, v) :: kvs => "\"" ++ k ++ "\":" ++ Json.render v ++ "," ++ Json.renderObj kvs

end

/-- Embeds serde deserialization of Option of Bundle, used for the
bundle field by the From impl for Features. -/
def bundleFromJson (j : Json) : Option (Option Wine.Bundle) :=
  match j with
  | .null => some none
  | .str "Proton" => some (some Wine.Bundle.proton)
  | _ => none

/-- Embeds From of JsonValue for Features (src/components/wine.rs lines
95-144): every field degrades to its default when absent or mistyped;
env entries are inserted as plain strings when the value is a string and
as rendered JSON otherwise. -/
def featuresFromJson (value : Json) : Wine.Features :=
  let dflt := Wine.Features.default
  { bundle :=
      match value.get "bundle" with
      | some v => (bundleFromJson v).getD dflt.bundle
      | none => dflt.bundle
  , need_dxvk :=
      match value.get "need_dxvk" with
      | some v => (v.asBool).getD dflt.need_dxvk
      | none => dflt.need_dxvk
  , compact_launch :=
      match value.get "compact_launch" with
      | some v => (v.asBool).getD dflt.compact_launch
      | none => dflt.compact_launch
  , prefixSubdir :=
      match value.get "prefix_subdir" with
      | some v => v.asStr
      | none => dflt.prefixSubdir
  , command :=
      match value.get "command" with
      | some v => v.asStr
      | none => dflt.command
  , env :=
      match value.get "env" with
      | some v =>
        match v.asObject with
        | some object =>
          dflt.env ++ object.map (fun kv =>
            (kv.1, match kv.2.asStr with
                   | some s => s
                   | none => kv.2.render))
        | none => dflt.env
      | none => dflt.env }

/-- Embeds serde deserialization of an optional string field of Files:
absent callers pass Null; a present string yields Some, null yields
None, anything else is an invalid-type error. -/
def optStringFromJson (j : Json) (field : String) : Except String (Option String) :=
  match j with
  | .null => .ok none
  | .str s => .ok (some s)
  | _ => .error ("invalid type for field " ++ field)

/-- Embeds serde_json::from_value for wine::Files (struct with required
string field wine and optional string fields wine64, wineserver,
wineboot, winecfg; unknown fields ignored). -/
def filesFromJson (j : Json) : Except String Wine.Files :=
  match j with
  | .obj _ =>
    match j.get "wine" with
    | none => .error "missing field wine"
    | some wineJ =>
      match wineJ.asStr with
      | none => .error "invalid type for field wine"
      | some wine =>
        match optStringFromJson (j.index "wine64") "wine64" with
        | .error e => .error e
        | .ok wine64 =>
          match optStringFromJson (j.index "wineserver") "wineserver" with
          | .error e => .error e
          | .ok wineserver =>
            match optStringFromJson (j.index "wineboot") "wineboot" with
            | .error e => .error e
            | .ok wineboot =>
              match optStringFromJson (j.index "winecfg") "winecfg" with
              | .error e => .error e
              | .ok winecfg =>
                .ok { wine, wine64, wineserver, wineboot, winecfg }
  | _ => .error "invalid type: files must be an object"

/-- Embeds the per-version loop of get_wine_versions
(src/components/loader.rs lines 54-63): name, title and uri are read
with as_str().unwrap() (panicking when absent or mistyped), files with
serde (propagating its error), features leniently. -/
def load_version_list : List Json → Except Wine.Fail (List Wine.Version)
  | [] => .ok []
  | version :: rest =>
    match (version.index "name").asStr with
    | none => .error (.panicked "called Option unwrap on a None value")
    | some name =>
      match (version.index "title").asStr with
      | none => .error (.panicked "called Option unwrap on a None value")
      | some title =>
        match (version.index "uri").asStr with
        | none => .error (.panicked "called Option unwrap on a None value")
        | some uri =>
          match filesFromJson (version.index "files") with
          | .error e => .error (.err e)
          | .ok files =>
            match load_version_list rest with
            | .error e => .error e
            | .ok others =>
              .ok ({ name := name
                   , title := title
                   , uri := uri
                   , files := files
                   , features := (version.get "features").map featuresFromJson
                   , managed := false } :: others)

/-- Embeds the per-group loop of get_wine_versions
(src/components/loader.rs lines 29-76). docs models reading and parsing
the per-group document index/wine/name.json; a read or parse failure is
an error propagated by the question-mark operator. -/
def load_wine_groups : List Json → (String → Except String Json) → Except Wine.Fail (List Wine.Group)
  | [], _ => .ok []
  | group :: rest, docs =>
    match group.get "name" with
    | none => .error (.err "Wrong components index structure: wine group name not found")
    | some nameJ =>
      match nameJ.asStr with
      | none => .error (.err "Wrong components index structure: wine group name entry must be a string")
      | some name =>
        match group.get "title" with
        | none => .error (.err "Wrong components index structure: wine group title not found")
        | some titleJ =>
          match titleJ.asStr with
          | none => .error (.err "Wrong components index structure: wine group title entry must be a string")
          | some title =>
            match docs name with
            | .error e => .error (.err e)
            | .ok versions =>
              match versions.asArray with
              | none => .error (.err "Wrong components index structure: wine versions must be a list")
              | some versionList =>
                match load_version_list versionList with
                | .error e => .error e
                | .ok wine_versions =>
                  match load_wine_groups rest docs with
                  | .error e => .error e
                  | .ok wine_groups =>
                    .ok ({ name := name
                         , title := title
                         , features := (group.get "features").map featuresFromJson
                         , versions := wine_versions
                         , managed := false } :: wine_groups)

/-- Embeds get_wine_versions (src/components/loader.rs lines 19-86) over
an already parsed components.json document. -/
def get_wine_versions (components : Json) (docs : String → Except String Json) : Except Wine.Fail (List Wine.Group) :=
  match components.get "wine" with
  | some wine =>
    match wine.asArray with
    | some groups => load_wine_groups groups docs
    | none => .error (.err "Wrong components index structure: wine entry must be a list")
  | none => .error (.err "Wrong components index structure: wine entry not found")

/-- A version object is structurally well formed when name, title and
uri are strings and files deserializes. -/
def goodVersion (v : Json) : Bool :=
  (v.index "name").asStr.isSome
  && (v.index "title").asStr.isSome
  && (v.index "uri").asStr.isSome
  && (filesFromJson (v.index "files")).isOk

/-- A group object is structurally well formed when its name and title
are strings and its version document is an array of well-formed version
objects. -/
def goodGroup (g : Json) (docs : String → Except String Json) : Bool :=
  match g.get "name" with
  | none => false
  | some nameJ =>
    match nameJ.asStr with
    | none => false
    | some name =>
      (match g.get "title" with
       | none => false
       | some titleJ => titleJ.asStr.isSome)
      &&
      (match docs name with
       | .error _ => false
       | .ok versions =>
         match versions.asArray with
         | none => false
         | some versionList => versionList.all goodVersion)

end Loader

namespace Genshin

/-- Embeds anime_game_core VersionDiff as consumed by
src/games/genshin/states.rs; payloads are abstracted to a tag. -/
inductive VersionDiff
  | latest (v : Nat)
  | predownload (i : Nat)
  | diff (i : Nat)
  | outdated (i : Nat)
  | notInstalled (i : Nat)
deriving DecidableEq, Repr

/-- Observable interactions of LauncherState::get: status-updater
callbacks and external provider queries. -/
inductive Event
  | statusGame
  | statusVoice (locale : Nat)
  | statusPatch
  | queryGameDiff
  | queryVoice (locale : Nat)
  | queryPatchSync
  | querySyncServer (server : Nat)
  | queryPlayerPatch
  | queryTelemetry
deriving DecidableEq, Repr

/-- External voice-package provider data for one locale:
VoicePackage::with_locale result, is_installed_in, whether
VoicePackage::new succeeds, and try_get_diff. -/
structure VoiceCtx where
  withLocale : Except String Unit
  installedIn : Bool
  newPkgOk : Bool
  diff : Except String VersionDiff
deriving Repr

/-- External player-patch provider data: the patch descriptor payload
and its is_applied result. -/
structure PlayerPatch where
  data : Nat
  applied : Except String Bool
deriving Repr

/-- The full context of src/games/genshin/states.rs
LauncherState::get: params plus every external provider observation. -/
structure Ctx where
  configGet : Except String Unit
  selectedWine : Except String (Option Bool)
  prefixHasDriveC : Bool
  gameDiff : Except String VersionDiff
  selectedVoices : List Nat
  voice : Nat → VoiceCtx
  patchIsSync : Except String (Option Unit)
  patchServers : List Nat
  syncOk : Nat → Bool
  usePatch : Bool
  playerPatch : Except String PlayerPatch
  telemetry : Except String (Option Unit)
  disableMhypbase : Bool

/-- Embeds enum LauncherState (src/games/genshin/states.rs lines
10-54). -/
inductive State
  | launch
  | predownloadAvailable (game : VersionDiff) (voices : List VersionDiff)
  | folderMigrationRequired
  | playerPatchAvailable (patch : Nat) (disableMhypbase : Bool)
  | telemetryNotDisabled
  | wineNotInstalled
  | prefixNotExists
  | voiceUpdateAvailable (d : VersionDiff)
  | voiceOutdated (d : VersionDiff)
  | voiceNotInstalled (d : VersionDiff)
  | gameUpdateAvailable (d : VersionDiff)
  | gameOutdated (d : VersionDiff)
  | gameNotInstalled (d : VersionDiff)
deriving DecidableEq, Repr

/-- Whether a diff is the Predownload variant. -/
def VersionDiff.isPredownload : VersionDiff → Bool
  | .predownload _ => true
  | _ => false

/-- Whether a diff lets the resolver continue (Latest or Predownload). -/
def VersionDiff.continues : VersionDiff → Bool
  | .latest _ => true
  | .predownload _ => true
  | _ => false

/-- Embeds the disabled computation of the telemetry check
(src/games/genshin/states.rs lines 158-169): no resolved domain, or a
lookup failure, counts as disabled. -/
def telemetryDisabled (ctx : Ctx) : Bool :=
  match ctx.telemetry with
  | .ok result => result.isNone
  | .error _ => true

/-- The Predownload diff contributed by one locale, if any. -/
def voicePick (ctx : Ctx) (l : Nat) : Option VersionDiff :=
  match (ctx.voice l).diff with
  | .ok dl => if dl.isPredownload then some dl else none
  | .error _ => none

/-- The voice diffs that were Predownload, in selection order. -/
def expectedPredownloadVoices (ctx : Ctx) : List VersionDiff :=
  ctx.selectedVoices.filterMap (voicePick ctx)

/-- Result of the voice loop: an early return with a terminal state, or
continuation with the accumulated predownload diffs. -/
inductive LoopRes
  | ret (st : State) (tr : List Event)
  | cont (acc : List VersionDiff) (tr : List Event)
deriving Repr

/-- Embeds the per-voice-locale loop (src/games/genshin/states.rs lines
104-128): Latest continues, Predownload accumulates, Diff, Outdated and
NotInstalled return their state; a failed package construction is an
error. -/
def voice_loop (ctx : Ctx) : List Nat → List VersionDiff → List Event → Except String LoopRes
  | [], acc, tr => .ok (.cont acc tr)
  | locale :: rest, acc, tr =>
    match (ctx.voice locale).withLocale with
    | .error e => .error e
    | .ok _ =>
      let tr := tr ++ [Event.queryVoice locale, Event.statusVoice locale]
      let vc := ctx.voice locale
      if vc.installedIn && !vc.newPkgOk then
        .error "Failed to load voice package"
      else
        match vc.diff with
        | .error e => .error e
        | .ok d =>
          match d with
          | .latest _ => voice_loop ctx rest acc tr
          | .predownload _ => voice_loop ctx rest (acc ++ [d]) tr
          | .diff _ => .ok (.ret (.voiceUpdateAvailable d) tr)
          | .outdated _ => .ok (.ret (.voiceOutdated d) tr)
          | .notInstalled _ => .ok (.ret (.voiceNotInstalled d) tr)

/-- Embeds the mirror-sync loop (src/games/genshin/states.rs lines
138-143): try servers in order, stop at the first success; failures are
discarded. Only the attempted servers are observable. -/
def sync_attempts (servers : List Nat) (syncOk : Nat → Bool) : List Event :=
  match servers with
  | [] => []
  | s :: rest =>
    Event.querySyncServer s :: (if syncOk s then [] else sync_attempts rest syncOk)

/-- Embeds the telemetry check and final decision
(src/games/genshin/states.rs lines 157-186): a lookup error or absent
resolution counts as disabled; then Predownload yields
PredownloadAvailable, otherwise Launch. -/
def telemetry_and_final (ctx : Ctx) (diff : VersionDiff) (predownloadVoice : List VersionDiff) (tr : List Event) : Except String (State × List Event) :=
  let tr := tr ++ [Event.queryTelemetry]
  let disabled := telemetryDisabled ctx
  if !disabled then
    .ok (.telemetryNotDisabled, tr)
  else
    match diff with
    | .predownload _ => .ok (.predownloadAvailable diff predownloadVoice, tr)
    | _ => .ok (.launch, tr)

/-- Embeds the checks of LauncherState::get from the game status
callback onwards (src/games/genshin/states.rs lines 93-192): game diff,
voice loop, patch sync, player patch, telemetry and final decision. -/
def game_and_later (ctx : Ctx) : Except String (State × List Event) :=
  let tr := [Event.statusGame]
  match ctx.gameDiff with
  | .error e => .error e
  | .ok diff =>
    let tr := tr ++ [Event.queryGameDiff]
    match diff with
    | .latest _ | .predownload _ =>
      match voice_loop ctx ctx.selectedVoices [] tr with
      | .error e => .error e
      | .ok (.ret st tr1) => .ok (st, tr1)
      | .ok (.cont predownloadVoice tr1) =>
        let tr2 := tr1 ++ [Event.statusPatch]
        match ctx.patchIsSync with
        | .error e => .error e
        | .ok isSync =>
          let tr3 := tr2 ++ [Event.queryPatchSync]
            ++ (if isSync.isNone then sync_attempts ctx.patchServers ctx.syncOk else [])
          if ctx.usePatch then
            match ctx.playerPatch with
            | .error e => .error e
            | .ok pp =>
              match pp.applied with
              | .error e => .error e
              | .ok applied =>
                let tr4 := tr3 ++ [Event.queryPlayerPatch]
                if !applied then
                  .ok (.playerPatchAvailable pp.data ctx.disableMhypbase, tr4)
                else
                  telemetry_and_final ctx diff predownloadVoice tr4
          else
            telemetry_and_final ctx diff predownloadVoice tr3
    | .diff _ => .ok (.gameUpdateAvailable diff, tr)
    | .outdated _ => .ok (.gameOutdated diff, tr)
    | .notInstalled _ => .ok (.gameNotInstalled diff, tr)

/-- Embeds LauncherState::get (src/games/genshin/states.rs lines
80-193), returning the terminal state together with the ordered trace of
callback and provider interactions. -/
def get (ctx : Ctx) : Except String (State × List Event) :=
  match ctx.configGet with
  | .error e => .error e
  | .ok _ =>
    match ctx.selectedWine with
    | .error e => .error e
    | .ok mwine =>
      let managed := match mwine with | some m => m | none => false
      if !ctx.prefixHasDriveC && !managed then
        .ok (.prefixNotExists, [])
      else
        game_and_later ctx

/-- The terminal state alone, discarding the interaction trace. -/
def resultState (ctx : Ctx) : Except String State :=
  (get ctx).map Prod.fst

end Genshin

namespace Honkai

/-- Embeds anime_game_core VersionDiff as matched by
src/games/honkai/states.rs (Latest, Diff, NotInstalled). -/
inductive VersionDiff
  | latest (v : Nat)
  | diff (i : Nat)
  | notInstalled (i : Nat)
deriving DecidableEq, Repr

/-- Embeds JadeitePatchStatusVariant; the Unsafe variant is named
notSafe here. -/
inductive JStatus
  | verified
  | unverified
  | broken
  | notSafe
  | concerning
deriving DecidableEq, Repr

/-- Embeds the jadeite metadata: the remote patch version and the
per-game-version status table (metadata.games.hi3rd.global.get_status). -/
structure Metadata where
  version : Nat
  status : Nat → JStatus

/-- The full context of src/games/honkai/states.rs LauncherState::get:
params plus every external provider observation. -/
structure Ctx where
  configGet : Except String Unit
  selectedWine : Except String (Option Bool)
  prefixHasDriveC : Bool
  gameDiff : Except String VersionDiff
  applyMfplat : Bool
  mfplatApplied : Except String Bool
  jadeiteInstalled : Bool
  metadata : Except String Metadata
  installedVersion : Except String Nat
  telemetry : Except String (Option Unit)
  telemetryIgnored : Bool

/-- Embeds enum LauncherState (src/games/honkai/states.rs lines
13-38). -/
inductive State
  | launch
  | mfplatPatchAvailable
  | patchNotVerified
  | patchBroken
  | patchNotSafe
  | patchConcerning
  | patchNotInstalled
  | patchUpdateAvailable
  | telemetryNotDisabled
  | wineNotInstalled
  | prefixNotExists
  | gameUpdateAvailable (d : VersionDiff)
  | gameNotInstalled (d : VersionDiff)
deriving DecidableEq, Repr

/-- Embeds the disabled computation of the telemetry check
(src/games/honkai/states.rs lines 104-115): no resolved domain, or a
lookup failure, counts as disabled. -/
def telemetryDisabled (ctx : Ctx) : Bool :=
  match ctx.telemetry with
  | .ok result => result.isNone
  | .error _ => true

/-- Embeds the checks following the mfplat patch check
(src/games/honkai/states.rs lines 92-127): jadeite install and version
checks, the fail-open telemetry check, and the per-version patch status
table. -/
def after_mfplat (ctx : Ctx) (version : Nat) : Except String State :=
  if !ctx.jadeiteInstalled then
    .ok .patchNotInstalled
  else
    match ctx.metadata with
    | .error e => .error e
    | .ok metadata =>
      match ctx.installedVersion with
      | .error e => .error e
      | .ok installed =>
        if metadata.version > installed then
          .ok .patchUpdateAvailable
        else
          let disabled := telemetryDisabled ctx
          if !disabled && !ctx.telemetryIgnored then
            .ok .telemetryNotDisabled
          else
            match metadata.status version with
            | .verified => .ok .launch
            | .unverified => .ok .patchNotVerified
            | .broken => .ok .patchBroken
            | .notSafe => .ok .patchNotSafe
            | .concerning => .ok .patchConcerning

/-- Embeds LauncherState::get (src/games/honkai/states.rs lines
61-133). -/
def get (ctx : Ctx) : Except String State :=
  match ctx.configGet with
  | .error e => .error e
  | .ok _ =>
    match ctx.selectedWine with
    | .error e => .error e
    | .ok mwine =>
      let managed := match mwine with | some m => m | none => false
      if !ctx.prefixHasDriveC && !managed then
        .ok .prefixNotExists
      else
        match ctx.gameDiff with
        | .error e => .error e
        | .ok diff =>
          match diff with
          | .latest version =>
            if ctx.applyMfplat then
              match ctx.mfplatApplied with
              | .error e => .error e
              | .ok applied =>
                if !applied then
                  .ok .mfplatPatchAvailable
                else
                  after_mfplat ctx version
            else
              after_mfplat ctx version
          | .diff _ => .ok (.gameUpdateAvailable diff)
          | .notInstalled _ => .ok (.gameNotInstalled diff)

end Honkai

namespace Steam

/-- The claim predicate of C6: the version file splits on the first
space into two non-empty tokens. -/
def twoNonEmptyTokens (s : String) : Bool :=
  match splitOnceSpace s with
  | some (a, b) => !a.isEmpty && !b.isEmpty
  | none => false

/-- The candidate directories surviving the proton-launcher filter, as
consumed by the version-collection loop. -/
def candidatesOf (env : Env) : List Candidate :=
  (filter_local_roots_by_proton_launcher env).getD []

end Steam

section ConcreteInputs

/-- A wine version with no version-level features. -/
def exVersionNoFeat : Wine.Version :=
  { name := "lutris-GE-Proton7-37"
  , title := "Wine-GE-Proton 7-37"
  , uri := "https://example.invalid/wine.tar.xz"
  , files := { wine := "bin/wine", wine64 := some "bin/wine64", wineserver := none, wineboot := none, winecfg := none }
  , managed := false
  , features := none }

/-- A group with no group-level features containing exVersionNoFeat. -/
def exGroupNoFeat : Wine.Group :=
  { name := "wine-ge-proton"
  , title := "Wine-GE-Proton"
  , features := none
  , versions := [exVersionNoFeat]
  , managed := false }

/-- A managed group holding a version whose folder does not exist. -/
def exManagedGroup : Wine.Group :=
  { name := "steam-proton"
  , title := "Proton Runners via Steam"
  , features := none
  , versions := [exVersionNoFeat]
  , managed := true }

/-- A dxvk version used to exercise Dxvk Version latest. -/
def exDxvkVersion : Dxvk.Version :=
  { name := "dxvk-2.1", version := "2.1", uri := "https://example.invalid/dxvk.tar.gz", recommended := true }

/-- A dxvk group used to exercise Dxvk Version latest. -/
def exDxvkGroup : Dxvk.Group :=
  { name := "Vanilla", versions := [exDxvkVersion] }

/-- A proton candidate whose version file starts with a space: the part
before the first space is empty, the part after is not. -/
def exLeadingSpaceCandidate : Steam.Candidate :=
  { isDir := true
  , isSymlink := false
  , hasProton := true
  , versionFile := .ok " GE-Proton8-1"
  , dirName := some "GE-Proton8-1-dir"
  , pathStr := some "/steam/compatibilitytools.d/GE-Proton8-1" }

/-- A discovery environment containing one root with the
leading-space candidate. -/
def exLeadingSpaceEnv : Steam.Env :=
  { searchRoots := some [ { pathExists := true, isDir := true, entries := [exLeadingSpaceCandidate] } ]
  , compatDataPath := none }

/-- A discovery environment where Steam's install cannot be located. -/
def exNoSteamEnv : Steam.Env :=
  { searchRoots := none, compatDataPath := none }

/-- A proton candidate whose version file cannot be read. -/
def exUnreadableCandidate : Steam.Candidate :=
  { isDir := true
  , isSymlink := false
  , hasProton := true
  , versionFile := .error "permission denied"
  , dirName := some "GE-Proton9-5"
  , pathStr := some "/steam/compatibilitytools.d/GE-Proton9-5" }

/-- A discovery environment containing one root with the unreadable
candidate. -/
def exUnreadableEnv : Steam.Env :=
  { searchRoots := some [ { pathExists := true, isDir := true, entries := [exUnreadableCandidate] } ]
  , compatDataPath := none }

/-- A components.json document whose single wine group has a version
document with one version object lacking every field. -/
def exBadVersionComponents : Loader.Json :=
  .obj [("wine", .arr [ .obj [("name", .str "wine-ge-proton"), ("title", .str "Wine-GE-Proton")] ])]

/-- Per-group documents for exBadVersionComponents: the group document
is an array with one empty version object. -/
def exBadVersionDocs : String → Except String Loader.Json :=
  fun _ => .ok (.arr [ .obj [] ])

/-- A genshin context where the game diff reports NotInstalled. -/
def exGenshinNotInstalledCtx : Genshin.Ctx :=
  { configGet := .ok ()
  , selectedWine := .ok (some false)
  , prefixHasDriveC := true
  , gameDiff := .ok (.notInstalled 7)
  , selectedVoices := [0, 1]
  , voice := fun l =>
      { withLocale := .ok ()
      , installedIn := true
      , newPkgOk := true
      , diff := .ok (.latest l) }
  , patchIsSync := .ok (some ())
  , patchServers := [0, 1]
  , syncOk := fun _ => true
  , usePatch := true
  , playerPatch := .ok { data := 3, applied := .ok true }
  , telemetry := .ok none
  , disableMhypbase := false }

/-- A genshin context matching Scenario E: game diff Predownload, one
voice Predownload, one voice Latest, patch applied, telemetry
disabled. -/
def exGenshinPredownloadCtx : Genshin.Ctx :=
  { configGet := .ok ()
  , selectedWine := .ok (some false)
  , prefixHasDriveC := true
  , gameDiff := .ok (.predownload 4)
  , selectedVoices := [0, 1]
  , voice := fun l =>
      { withLocale := .ok ()
      , installedIn := true
      , newPkgOk := true
      , diff := if l = 0 then .ok (.predownload 9) else .ok (.latest 5) }
  , patchIsSync := .ok none
  , patchServers := [0, 1]
  , syncOk := fun s => s = 1
  , usePatch := true
  , playerPatch := .ok { data := 3, applied := .ok true }
  , telemetry := .ok none
  , disableMhypbase := true }

/-- A honkai context reaching the telemetry check with telemetry
resolved and not ignored. -/
def exHonkaiTelemetryCtx : Honkai.Ctx :=
  { configGet := .ok ()
  , selectedWine := .ok (some false)
  , prefixHasDriveC := true
  , gameDiff := .ok (.latest 12)
  , applyMfplat := true
  , mfplatApplied := .ok true
  , jadeiteInstalled := true
  , metadata := .ok { version := 5, status := fun _ => .verified }
  , installedVersion := .ok 5
  , telemetry := .ok (some ())
  , telemetryIgnored := false }

end ConcreteInputs

/-- Any error produced by get_split_names is the version-file read
panic. -/
theorem get_split_names_error_is_panic (c : Steam.Candidate) (f : Wine.Fail)
    (h : Steam.get_split_names c = .error f) :
    f = .panicked "Should have been able to read the file" := by
  simp only [Steam.get_split_names] at h
  cases hv : c.versionFile with
  | error e =>
    simp only [hv] at h
    first
      | exact h.symm
      | exact (Except.error.inj h).symm
  | ok s =>
    simp only [hv] at h
    cases hsp : Steam.splitOnceSpace s with
    | none => simp only [hsp] at h; exact Except.noConfusion h
    | some ab =>
      obtain ⟨a, b⟩ := ab
      simp only [hsp] at h
      cases hbe : b.isEmpty with
      | true => simp only [hbe] at h; exact Except.noConfusion h
      | false =>
        simp only [hbe] at h
        cases hdn : c.dirName with
        | none => simp only [hdn] at h; exact Except.noConfusion h
        | some dn => simp only [hdn] at h; exact Except.noConfusion h

/-- When the version file is readable, get_split_names succeeds. -/
theorem get_split_names_ok (c : Steam.Candidate) (s : String)
    (hs : c.versionFile = .ok s) :
    ∃ r, Steam.get_split_names c = .ok r := by
  simp only [Steam.get_split_names, hs]
  cases hsp : Steam.splitOnceSpace s with
  | none => simp only [hsp]; exact ⟨_, rfl⟩
  | some ab =>
    obtain ⟨a, b⟩ := ab
    simp only [hsp]
    cases hbe : b.isEmpty with
    | true => simp only [hbe]; exact ⟨_, rfl⟩
    | false =>
      simp only [hbe]
      cases hdn : c.dirName with
      | none => simp only [hdn]; exact ⟨_, rfl⟩
      | some dn => simp only [hdn]; exact ⟨_, rfl⟩

/-- The proton-launcher filter always succeeds, yielding the candidate
list. -/
theorem filter_local_roots_eq (env : Steam.Env) :
    Steam.filter_local_roots_by_proton_launcher env = some (Steam.candidatesOf env) := rfl

/-- The version-collection loop succeeds when every candidate has a
readable version file and a UTF-8 path. -/
theorem collect_wines_total (cs : List Steam.Candidate) (feats : Steam.Features)
    (h : ∀ c ∈ cs, (∃ s, c.versionFile = .ok s) ∧ c.pathStr ≠ none) :
    ∃ ws, Steam.collect_wines cs feats = .ok ws := by
  induction cs with
  | nil => exact ⟨[], rfl⟩
  | cons c rest ih =>
    obtain ⟨⟨s, hs⟩, hp⟩ := h c (List.mem_cons_self c rest)
    obtain ⟨ws, hws⟩ := ih (fun x hx => h x (List.mem_cons_of_mem _ hx))
    obtain ⟨r, hr⟩ := get_split_names_ok c s hs
    simp only [Steam.collect_wines]
    rw [hr]
    obtain ⟨t, n⟩ := r
    cases n with
    | none => exact ⟨ws, hws⟩
    | some nm =>
      cases t with
      | none => exact ⟨ws, hws⟩
      | some tt =>
        cases hps : c.pathStr with
        | none => exact absurd hps hp
        | some p =>
          rw [hws]
          exact ⟨_, rfl⟩

/-- The version-collection loop panics whenever some candidate's
version file is unreadable. -/
theorem collect_wines_panics (cs : List Steam.Candidate) (feats : Steam.Features)
    (c : Steam.Candidate) (e : String)
    (hc : c ∈ cs) (hf : c.versionFile = .error e) :
    ∃ msg, Steam.collect_wines cs feats = .error (.panicked msg) := by
  induction cs with
  | nil => exact absurd hc (List.not_mem_nil c)
  | cons x rest ih =>
    rcases List.mem_cons.mp hc with hcx | hcr
    · subst hcx
      refine ⟨"Should have been able to read the file", ?_⟩
      simp only [Steam.collect_wines]
      have : Steam.get_split_names c = .error (.panicked "Should have been able to read the file") := by
        unfold Steam.get_split_names
        rw [hf]
      rw [this]
    · obtain ⟨m, hm⟩ := ih hcr
      cases hsx : Steam.get_split_names x with
      | error f =>
        refine ⟨"Should have been able to read the file", ?_⟩
        simp only [Steam.collect_wines]
        rw [hsx, get_split_names_error_is_panic x f hsx]
      | ok r =>
        simp only [Steam.collect_wines]
        rw [hsx]
        obtain ⟨t, n⟩ := r
        cases n with
        | none => exact ⟨m, hm⟩
        | some nm =>
          cases t with
          | none => exact ⟨m, hm⟩
          | some tt =>
            cases hps : x.pathStr with
            | none => exact ⟨"called Option unwrap on a None value", rfl⟩
            | some p =>
              rw [hm]
              exact ⟨m, rfl⟩

/-- C3 counterexample: with both the version-level and the group-level
features absent, feature resolution yields None, not the documented
default Features value the claim requires. -/
theorem c3_features_in_counterexample :
    Wine.Version.features_in exVersionNoFeat exGroupNoFeat = none ∧
    Wine.Version.features_in exVersionNoFeat exGroupNoFeat ≠ some Wine.Features.default := by
  exact ⟨by decide, by decide⟩

/-- C3 (amended): feature resolution is whole-object fallback with no
field-by-field merging: version-level features win completely when
present, otherwise the group's features are returned as they are, and
when both are absent the resolver returns None (callers receive no
features; the documented defaults are not substituted here). -/
theorem c3_features_in_whole_object_fallback (v : Wine.Version) (g : Wine.Group) :
    Wine.Version.features_in v g =
      match v.features with
      | some f => some f
      | none => g.features := by
  unfold Wine.Version.features_in
  cases hv : v.features <;> cases hg : g.features <;> simp [hv, hg]

/-- C4: the downloaded-versions listing never returns a version whose
name does not exist as a subdirectory of the local folder, except inside
a managed group, which is retained unfiltered. -/
theorem c4_get_downloaded_only_existing (groups : List Wine.Group) (folderHas : String → Bool)
    (g : Wine.Group) (v : Wine.Version)
    (hg : g ∈ Wine.get_downloaded groups folderHas)
    (hv : v ∈ g.versions)
    (habs : folderHas v.name = false) :
    g.managed = true := by
  induction groups with
  | nil => simp [Wine.get_downloaded] at hg
  | cons group rest ih =>
    by_cases hm : group.managed = true
    · rw [Wine.get_downloaded] at hg
      simp only [hm, if_pos] at hg
      rcases List.mem_cons.mp hg with hgg | hgr
      · subst hgg; exact hm
      · exact ih hgr
    · rw [Wine.get_downloaded] at hg
      simp only [hm, if_neg, if_false] at hg
      by_cases he : (group.versions.filter (fun w => folderHas w.name)).isEmpty = true
      · simp only [he, if_pos] at hg
        exact ih hg
      · simp only [he, if_neg, if_false] at hg
        rcases List.mem_cons.mp hg with hgg | hgr
        · subst hgg
          simp only at hv
          have := (List.mem_filter.mp hv).2
          rw [habs] at this
          exact absurd this (by simp)
        · exact ih hgr

/-- C4 witness: a managed group whose version folder is absent is still
returned, and the theorem applies to it. -/
theorem c4_get_downloaded_witness : exManagedGroup.managed = true :=
  c4_get_downloaded_only_existing [exManagedGroup] (fun _ => false) exManagedGroup exVersionNoFeat
    (by decide) (by decide) rfl

/-- C9: the latest-version lookups of the wine and dxvk components
return the first version of the first group when both exist, and panic
with an out-of-bounds indexing failure (rather than returning an error
value or Option) when the catalog has no groups or the first group has
no versions. -/
theorem c9_latest_out_of_bounds :
    (∀ (gs : List Wine.Group) (g : Wine.Group) (v : Wine.Version),
        gs.head? = some g → g.versions.head? = some v →
        Wine.Version.latest (.ok gs) = .ok v)
    ∧ (∀ gs : List Wine.Group, gs.head? = none →
        Wine.Version.latest (.ok gs) = .error (.panicked "index out of bounds"))
    ∧ (∀ (gs : List Wine.Group) (g : Wine.Group), gs.head? = some g → g.versions.head? = none →
        Wine.Version.latest (.ok gs) = .error (.panicked "index out of bounds"))
    ∧ (∀ (gs : List Dxvk.Group) (g : Dxvk.Group) (v : Dxvk.Version),
        gs.head? = some g → g.versions.head? = some v →
        Dxvk.Version.latest gs = .ok v)
    ∧ (∀ gs : List Dxvk.Group, gs.head? = none →
        Dxvk.Version.latest gs = .error (.panicked "index out of bounds"))
    ∧ (∀ (gs : List Dxvk.Group) (g : Dxvk.Group), gs.head? = some g → g.versions.head? = none →
        Dxvk.Version.latest gs = .error (.panicked "index out of bounds")) := by
  refine ⟨?_, ?_, ?_, ?_, ?_, ?_⟩
  · intro gs g v h1 h2
    simp only [Wine.Version.latest, h1, h2]
  · intro gs h1
    simp only [Wine.Version.latest, h1]
  · intro gs g h1 h2
    simp only [Wine.Version.latest, h1, h2]
  · intro gs g v h1 h2
    simp only [Dxvk.Version.latest, h1, h2]
  · intro gs h1
    simp only [Dxvk.Version.latest, h1]
  · intro gs g h1 h2
    simp only [Dxvk.Version.latest, h1, h2]

/-- C9 witness: on a singleton catalog both lookups return the first
version of the first group, and on the empty catalog both panic. -/
theorem c9_latest_witness :
    Wine.Version.latest (.ok [exGroupNoFeat]) = .ok exVersionNoFeat
    ∧ Wine.Version.latest (.ok []) = .error (.panicked "index out of bounds")
    ∧ Dxvk.Version.latest [exDxvkGroup] = .ok exDxvkVersion
    ∧ Dxvk.Version.latest [] = .error (.panicked "index out of bounds") :=
  ⟨c9_latest_out_of_bounds.1 [exGroupNoFeat] exGroupNoFeat exVersionNoFeat rfl rfl,
   c9_latest_out_of_bounds.2.1 [] rfl,
   c9_latest_out_of_bounds.2.2.2.1 [exDxvkGroup] exDxvkGroup exDxvkVersion rfl rfl,
   c9_latest_out_of_bounds.2.2.2.2.1 [] rfl⟩

/-- C7 counterexample: when Steam's install cannot be located (the
search roots are None) while Steam-launched mode is asserted, the claim
requires a discovery error, but the code returns Ok with the single
empty steam-proton group: the None roots case is made an empty candidate
list by the filter, so the error branch is unreachable. -/
theorem c7_discovery_counterexample :
    Steam.get_proton_installs_as_wines exNoSteamEnv
      = .ok [ { name := "steam-proton"
              , title := "Proton Runners via Steam"
              , features := some (Steam.proton_features exNoSteamEnv)
              , versions := []
              , managed := true } ] := rfl

/-- C7 (amended): Proton discovery never returns the discovery error:
whenever every surviving candidate has a readable version file and a
UTF-8 path (so no panic occurs), it returns Ok containing exactly one
component group named steam-proton with managed true holding the
discovered builds; when Steam cannot be located the group is simply
empty. -/
theorem c7_discovery_always_single_group (env : Steam.Env)
    (hread : ∀ c ∈ Steam.candidatesOf env, ∃ s, c.versionFile = .ok s)
    (hpath : ∀ c ∈ Steam.candidatesOf env, c.pathStr ≠ none) :
    ∃ wines, Steam.get_proton_installs_as_wines env
      = .ok [ { name := "steam-proton"
              , title := "Proton Runners via Steam"
              , features := some (Steam.proton_features env)
              , versions := wines
              , managed := true } ] := by
  obtain ⟨ws, hws⟩ := collect_wines_total (Steam.candidatesOf env) (Steam.proton_features env)
    (fun c hc => ⟨hread c hc, hpath c hc⟩)
  refine ⟨ws, ?_⟩
  simp only [Steam.get_proton_installs_as_wines, filter_local_roots_eq env, hws]

/-- C7 witness: the amended theorem applied to the environment with one
well-formed candidate. -/
theorem c7_discovery_witness :
    ∃ wines, Steam.get_proton_installs_as_wines exLeadingSpaceEnv
      = .ok [ { name := "steam-proton"
              , title := "Proton Runners via Steam"
              , features := some (Steam.proton_features exLeadingSpaceEnv)
              , versions := wines
              , managed := true } ] := by
  apply c7_discovery_always_single_group
  · intro c hc
    rw [show Steam.candidatesOf exLeadingSpaceEnv = [exLeadingSpaceCandidate] from rfl] at hc
    rw [List.mem_singleton.mp hc]
    exact ⟨" GE-Proton8-1", rfl⟩
  · intro c hc
    rw [show Steam.candidatesOf exLeadingSpaceEnv = [exLeadingSpaceCandidate] from rfl] at hc
    rw [List.mem_singleton.mp hc]
    simp [exLeadingSpaceCandidate]

/-- C6 counterexample: the candidate version file content starts with a
space, so it does not split into two non-empty tokens, yet discovery
emits the version (with the part after the space as its name): the code
only requires the part after the first space to be non-empty. -/
theorem c6_version_file_counterexample :
    Steam.twoNonEmptyTokens " GE-Proton8-1" = false ∧
    Steam.get_proton_installs_as_wines exLeadingSpaceEnv
      = .ok [ { name := "steam-proton"
              , title := "Proton Runners via Steam"
              , features := some (Steam.proton_features exLeadingSpaceEnv)
              , versions := [ { name := "GE-Proton8-1"
                              , title := "GE-Proton8-1-dir"
                              , uri := "/steam/compatibilitytools.d/GE-Proton8-1"
                              , format := none
                              , files := { wine := "proton", wine64 := none, wineserver := none, wineboot := none }
                              , features := some (Steam.proton_features exLeadingSpaceEnv)
                              , managed := true } ]
              , managed := true } ] :=
  ⟨rfl, rfl⟩

/-- C6 (amended): a candidate is skipped exactly when its version file
contains no space or the part after the first space is empty (or the
directory name is unreadable); the part before the first space is not
required to be non-empty. Skipped candidates contribute nothing to the
collected versions. -/
theorem c6_split_names_emission (c : Steam.Candidate) (content : String)
    (hread : c.versionFile = .ok content) :
    (Steam.splitOnceSpace content = none →
       Steam.get_split_names c = .ok (none, none))
    ∧ (∀ a b, Steam.splitOnceSpace content = some (a, b) → b.isEmpty = true →
       Steam.get_split_names c = .ok (none, none))
    ∧ (∀ a b dn, Steam.splitOnceSpace content = some (a, b) → b.isEmpty = false →
       c.dirName = some dn →
       Steam.get_split_names c = .ok (some (Steam.trim dn), some (Steam.trim b)))
    ∧ (∀ rest feats, Steam.get_split_names c = .ok (none, none) →
       Steam.collect_wines (c :: rest) feats = Steam.collect_wines rest feats) := by
  refine ⟨?_, ?_, ?_, ?_⟩
  · intro hsp
    simp only [Steam.get_split_names, hread, hsp]
  · intro a b hsp hbe
    simp only [Steam.get_split_names, hread, hsp, hbe]
  · intro a b dn hsp hbe hdn
    simp only [Steam.get_split_names, hread, hsp, hbe, hdn]
  · intro rest feats hskip
    simp only [Steam.collect_wines, hskip]

/-- C6 witness: the general emission law applied to the leading-space
candidate: the part after the space is non-empty, so the candidate is
emitted even though the part before the space is empty. -/
theorem c6_split_names_witness :
    Steam.get_split_names exLeadingSpaceCandidate
      = .ok (some "GE-Proton8-1-dir", some "GE-Proton8-1") :=
  (c6_split_names_emission exLeadingSpaceCandidate " GE-Proton8-1" rfl).2.2.1
    "" "GE-Proton8-1" "GE-Proton8-1-dir" rfl rfl rfl

/-- C10: a candidate directory that passes the proton-launcher filter
but whose version file cannot be read aborts the entire discovery run
with a panic (the expect on the file read); the candidate is not skipped
and no error value is returned. -/
theorem c10_unreadable_version_file_panics (env : Steam.Env) (c : Steam.Candidate) (e : String)
    (hc : c ∈ Steam.candidatesOf env)
    (hf : c.versionFile = .error e) :
    ∃ msg, Steam.get_proton_installs_as_wines env = .error (.panicked msg) := by
  obtain ⟨m, hm⟩ := collect_wines_panics (Steam.candidatesOf env) (Steam.proton_features env) c e hc hf
  refine ⟨m, ?_⟩
  simp only [Steam.get_proton_installs_as_wines, filter_local_roots_eq env, hm]

/-- C10 witness: the discovery run over the environment holding one
unreadable candidate panics. -/
theorem c10_unreadable_witness :
    ∃ msg, Steam.get_proton_installs_as_wines exUnreadableEnv = .error (.panicked msg) :=
  c10_unreadable_version_file_panics exUnreadableEnv exUnreadableCandidate "permission denied"
    (by rw [show Steam.candidatesOf exUnreadableEnv = [exUnreadableCandidate] from rfl]
        exact List.mem_singleton.mpr rfl)
    rfl

/-- A successful version-list load implies every version object was
structurally well formed. -/
theorem load_version_list_sound (vs : List Loader.Json) (out : List Wine.Version)
    (h : Loader.load_version_list vs = .ok out) :
    ∀ v ∈ vs, Loader.goodVersion v = true := by
  induction vs generalizing out with
  | nil => intro v hv; exact absurd hv (List.not_mem_nil v)
  | cons v rest ih =>
    simp only [Loader.load_version_list] at h
    cases hn : (v.index "name").asStr with
    | none => simp only [hn] at h; exact Except.noConfusion h
    | some name =>
      simp only [hn] at h
      cases ht : (v.index "title").asStr with
      | none => simp only [ht] at h; exact Except.noConfusion h
      | some title =>
        simp only [ht] at h
        cases hu : (v.index "uri").asStr with
        | none => simp only [hu] at h; exact Except.noConfusion h
        | some uri =>
          simp only [hu] at h
          cases hfl : Loader.filesFromJson (v.index "files") with
          | error e => simp only [hfl] at h; exact Except.noConfusion h
          | ok fl =>
            simp only [hfl] at h
            cases hrest : Loader.load_version_list rest with
            | error e => simp only [hrest] at h; exact Except.noConfusion h
            | ok others =>
              intro w hw
              rcases List.mem_cons.mp hw with hwv | hwr
              · subst hwv
                simp [Loader.goodVersion, hn, ht, hu, hfl, Except.isOk, Except.toBool]
              · exact ih others hrest w hwr

/-- A successful group-list load implies every group object was
structurally well formed. -/
theorem load_wine_groups_sound (gs : List Loader.Json) (docs : String → Except String Loader.Json)
    (out : List Wine.Group)
    (h : Loader.load_wine_groups gs docs = .ok out) :
    ∀ g ∈ gs, Loader.goodGroup g docs = true := by
  induction gs generalizing out with
  | nil => intro g hg; exact absurd hg (List.not_mem_nil g)
  | cons g rest ih =>
    simp only [Loader.load_wine_groups] at h
    cases hn : g.get "name" with
    | none => simp only [hn] at h; exact Except.noConfusion h
    | some nj =>
      simp only [hn] at h
      cases hns : nj.asStr with
      | none => simp only [hns] at h; exact Except.noConfusion h
      | some name =>
        simp only [hns] at h
        cases ht : g.get "title" with
        | none => simp only [ht] at h; exact Except.noConfusion h
        | some tj =>
          simp only [ht] at h
          cases hts : tj.asStr with
          | none => simp only [hts] at h; exact Except.noConfusion h
          | some title =>
            simp only [hts] at h
            cases hdoc : docs name with
            | error e => simp only [hdoc] at h; exact Except.noConfusion h
            | ok versions =>
              simp only [hdoc] at h
              cases hva : versions.asArray with
              | none => simp only [hva] at h; exact Except.noConfusion h
              | some versionList =>
                simp only [hva] at h
                cases hvl : Loader.load_version_list versionList with
                | error e => simp only [hvl] at h; exact Except.noConfusion h
                | ok wine_versions =>
                  simp only [hvl] at h
                  cases hrest : Loader.load_wine_groups rest docs with
                  | error e => simp only [hrest] at h; exact Except.noConfusion h
                  | ok wine_groups =>
                    intro x hx
                    rcases List.mem_cons.mp hx with hxg | hxr
                    · subst hxg
                      simp only [Loader.goodGroup, hn, hns, ht, hts, hdoc, hva,
                        Option.isSome_some, Bool.true_and, List.all_eq_true]
                      intro w hw
                      exact load_version_list_sound versionList wine_versions hvl w hw
                    · exact ih wine_groups hrest x hxr

/-- C5 counterexample: a catalog whose single well-named group has a
version document holding one version object with no fields makes the
loader panic on the unwrap of the missing version name, instead of
returning the structural error the claim requires. -/
theorem c5_version_name_panics_counterexample :
    Loader.get_wine_versions exBadVersionComponents exBadVersionDocs
      = .error (.panicked "called Option unwrap on a None value") := rfl

/-- C5 (amended): a missing or mistyped wine entry, group name, group
title or versions list aborts the load with a structural error carrying
a human-readable description, and a version whose files entry does not
deserialize aborts with the deserialization error; but a version entry
whose name, title or uri is missing or mistyped aborts with a panic (an
unwrap of None) rather than a returned error; a successful load implies
every required key was present and well typed (no silent defaulting). -/
theorem c5_loader_structural_failures :
    (∀ (components : Loader.Json) (docs : String → Except String Loader.Json)
        (gs : List Wine.Group),
        Loader.get_wine_versions components docs = .ok gs →
        ∃ w groups, components.get "wine" = some w ∧ w.asArray = some groups
          ∧ ∀ g ∈ groups, Loader.goodGroup g docs = true)
    ∧ (∀ components docs, Loader.Json.get components "wine" = none →
        Loader.get_wine_versions components docs
          = .error (.err "Wrong components index structure: wine entry not found"))
    ∧ (∀ components docs w, Loader.Json.get components "wine" = some w → w.asArray = none →
        Loader.get_wine_versions components docs
          = .error (.err "Wrong components index structure: wine entry must be a list"))
    ∧ (∀ g rest docs, Loader.Json.get g "name" = none →
        Loader.load_wine_groups (g :: rest) docs
          = .error (.err "Wrong components index structure: wine group name not found"))
    ∧ (∀ g rest docs nj, Loader.Json.get g "name" = some nj → nj.asStr = none →
        Loader.load_wine_groups (g :: rest) docs
          = .error (.err "Wrong components index structure: wine group name entry must be a string"))
    ∧ (∀ g rest docs nj name, Loader.Json.get g "name" = some nj → nj.asStr = some name →
        Loader.Json.get g "title" = none →
        Loader.load_wine_groups (g :: rest) docs
          = .error (.err "Wrong components index structure: wine group title not found"))
    ∧ (∀ g rest docs nj name tj, Loader.Json.get g "name" = some nj → nj.asStr = some name →
        Loader.Json.get g "title" = some tj → tj.asStr = none →
        Loader.load_wine_groups (g :: rest) docs
          = .error (.err "Wrong components index structure: wine group title entry must be a string"))
    ∧ (∀ g rest docs nj name tj title versions,
        Loader.Json.get g "name" = some nj → nj.asStr = some name →
        Loader.Json.get g "title" = some tj → tj.asStr = some title →
        docs name = .ok versions → versions.asArray = none →
        Loader.load_wine_groups (g :: rest) docs
          = .error (.err "Wrong components index structure: wine versions must be a list"))
    ∧ (∀ v rest, (Loader.Json.index v "name").asStr = none →
        Loader.load_version_list (v :: rest)
          = .error (.panicked "called Option unwrap on a None value"))
    ∧ (∀ v rest name, (Loader.Json.index v "name").asStr = some name →
        (Loader.Json.index v "title").asStr = none →
        Loader.load_version_list (v :: rest)
          = .error (.panicked "called Option unwrap on a None value"))
    ∧ (∀ v rest name title, (Loader.Json.index v "name").asStr = some name →
        (Loader.Json.index v "title").asStr = some title →
        (Loader.Json.index v "uri").asStr = none →
        Loader.load_version_list (v :: rest)
          = .error (.panicked "called Option unwrap on a None value"))
    ∧ (∀ v rest name title uri e, (Loader.Json.index v "name").asStr = some name →
        (Loader.Json.index v "title").asStr = some title →
        (Loader.Json.index v "uri").asStr = some uri →
        Loader.filesFromJson (Loader.Json.index v "files") = .error e →
        Loader.load_version_list (v :: rest) = .error (.err e)) := by
  refine ⟨?_, ?_, ?_, ?_, ?_, ?_, ?_, ?_, ?_, ?_, ?_, ?_⟩
  · intro components docs gs h
    simp only [Loader.get_wine_versions] at h
    cases hw : components.get "wine" with
    | none => simp only [hw] at h; exact Except.noConfusion h
    | some w =>
      simp only [hw] at h
      cases hwa : w.asArray with
      | none => simp only [hwa] at h; exact Except.noConfusion h
      | some groups =>
        simp only [hwa] at h
        exact ⟨w, groups, rfl, hwa, load_wine_groups_sound groups docs gs h⟩
  · intro components docs h
    simp only [Loader.get_wine_versions, h]
  · intro components docs w h1 h2
    simp only [Loader.get_wine_versions, h1, h2]
  · intro g rest docs h
    simp only [Loader.load_wine_groups, h]
  · intro g rest docs nj h1 h2
    simp only [Loader.load_wine_groups, h1, h2]
  · intro g rest docs nj name h1 h2 h3
    simp only [Loader.load_wine_groups, h1, h2, h3]
  · intro g rest docs nj name tj h1 h2 h3 h4
    simp only [Loader.load_wine_groups, h1, h2, h3, h4]
  · intro g rest docs nj name tj title versions h1 h2 h3 h4 h5 h6
    simp only [Loader.load_wine_groups, h1, h2, h3, h4, h5, h6]
  · intro v rest h
    simp only [Loader.load_version_list, h]
  · intro v rest name h1 h2
    simp only [Loader.load_version_list, h1, h2]
  · intro v rest name title h1 h2 h3
    simp only [Loader.load_version_list, h1, h2, h3]
  · intro v rest name title uri e h1 h2 h3 h4
    simp only [Loader.load_version_list, h1, h2, h3, h4]

/-- C5 witness: the structural-failure theorem applied to a components
document with no wine entry. -/
theorem c5_loader_witness :
    Loader.get_wine_versions (.obj []) (fun _ => .ok .null)
      = .error (.err "Wrong components index structure: wine entry not found") :=
  c5_loader_structural_failures.2.1 (.obj []) (fun _ => .ok .null) rfl

/-- C1: when the prefix check passes and the game version provider
reports NotInstalled, the resolver returns GameNotInstalled carrying
that diff, and the interaction trace holds only the game status
callback and the game diff query: no voice, patch-sync, player-patch or
telemetry interaction ever happens. -/
theorem c1_game_not_installed_short_circuits (ctx : Genshin.Ctx) (w : Option Bool) (i : Nat)
    (hc : ctx.configGet = .ok ())
    (hw : ctx.selectedWine = .ok w)
    (hpre : (ctx.prefixHasDriveC || w.getD false) = true)
    (hd : ctx.gameDiff = .ok (.notInstalled i)) :
    Genshin.get ctx
      = .ok (.gameNotInstalled (.notInstalled i),
             [Genshin.Event.statusGame, Genshin.Event.queryGameDiff]) := by
  cases hpd : ctx.prefixHasDriveC with
  | true => simp [Genshin.get, Genshin.game_and_later, hc, hw, hd, hpd]
  | false =>
    rw [hpd] at hpre
    simp only [Bool.false_or] at hpre
    cases w with
    | none => simp at hpre
    | some m =>
      simp only [Option.getD_some] at hpre
      subst hpre
      simp [Genshin.get, Genshin.game_and_later, hc, hw, hd, hpd]

/-- C1 witness: the theorem applied to the concrete NotInstalled
context. -/
theorem c1_game_not_installed_witness :
    Genshin.get exGenshinNotInstalledCtx
      = .ok (.gameNotInstalled (.notInstalled 7),
             [Genshin.Event.statusGame, Genshin.Event.queryGameDiff]) :=
  c1_game_not_installed_short_circuits exGenshinNotInstalledCtx (some false) 7 rfl rfl rfl rfl

/-- When every selected voice diff is Latest or Predownload and every
voice package loads, the voice loop continues and accumulates exactly
the Predownload diffs in selection order. -/
theorem voice_loop_all_continue (ctx : Genshin.Ctx) (ls : List Nat)
    (h : ∀ l ∈ ls, (ctx.voice l).withLocale = .ok ()
          ∧ ((ctx.voice l).installedIn && !(ctx.voice l).newPkgOk) = false
          ∧ ∃ dl, (ctx.voice l).diff = .ok dl ∧ dl.continues = true) :
    ∀ acc tr, ∃ tr1, Genshin.voice_loop ctx ls acc tr
      = .ok (.cont (acc ++ ls.filterMap (Genshin.voicePick ctx)) tr1) := by
  induction ls with
  | nil =>
    intro acc tr
    exact ⟨tr, by simp [Genshin.voice_loop]⟩
  | cons l rest ih =>
    intro acc tr
    obtain ⟨hwl, hpkg, dl, hdl, hcont⟩ := h l (List.mem_cons_self l rest)
    have hrest := fun x hx => h x (List.mem_cons_of_mem l hx)
    cases dl with
    | latest v =>
      obtain ⟨tr1, htr1⟩ := ih hrest acc (tr ++ [Genshin.Event.queryVoice l, Genshin.Event.statusVoice l])
      refine ⟨tr1, ?_⟩
      simp only [Genshin.voice_loop, hwl, hpkg, Bool.false_eq_true, if_false, hdl]
      rw [htr1]
      simp [List.filterMap_cons, Genshin.voicePick, hdl, Genshin.VersionDiff.isPredownload]
    | predownload j =>
      obtain ⟨tr1, htr1⟩ := ih hrest (acc ++ [Genshin.VersionDiff.predownload j])
        (tr ++ [Genshin.Event.queryVoice l, Genshin.Event.statusVoice l])
      refine ⟨tr1, ?_⟩
      simp only [Genshin.voice_loop, hwl, hpkg, Bool.false_eq_true, if_false, hdl]
      rw [htr1]
      simp [List.filterMap_cons, Genshin.voicePick, hdl, Genshin.VersionDiff.isPredownload]
    | diff j => simp [Genshin.VersionDiff.continues] at hcont
    | outdated j => simp [Genshin.VersionDiff.continues] at hcont
    | notInstalled j => simp [Genshin.VersionDiff.continues] at hcont

/-- C2: when all earlier checks pass (prefix valid, game diff Latest or
Predownload, every voice diff Latest or Predownload, player patch
applied when requested, telemetry disabled), the resolver returns
PredownloadAvailable carrying the game diff together with exactly the
voice diffs that were Predownload in selection order when the game diff
was Predownload, and Launch otherwise. -/
theorem c2_final_decision (ctx : Genshin.Ctx) (w : Option Bool) (d : Genshin.VersionDiff)
    (hc : ctx.configGet = .ok ())
    (hw : ctx.selectedWine = .ok w)
    (hpre : (ctx.prefixHasDriveC || w.getD false) = true)
    (hd : ctx.gameDiff = .ok d)
    (hdc : d.continues = true)
    (hvoices : ∀ l ∈ ctx.selectedVoices, (ctx.voice l).withLocale = .ok ()
          ∧ ((ctx.voice l).installedIn && !(ctx.voice l).newPkgOk) = false
          ∧ ∃ dl, (ctx.voice l).diff = .ok dl ∧ dl.continues = true)
    (hsync : ∃ s, ctx.patchIsSync = .ok s)
    (hpatch : ctx.usePatch = true → ∃ pp, ctx.playerPatch = .ok pp ∧ pp.applied = .ok true)
    (htel : Genshin.telemetryDisabled ctx = true) :
    Genshin.resultState ctx
      = .ok (if d.isPredownload
             then Genshin.State.predownloadAvailable d (Genshin.expectedPredownloadVoices ctx)
             else Genshin.State.launch) := by
  obtain ⟨s, hs⟩ := hsync
  have hloop := voice_loop_all_continue ctx ctx.selectedVoices hvoices
  have hpass : Genshin.get ctx = Genshin.game_and_later ctx := by
    cases hpd : ctx.prefixHasDriveC with
    | true => simp [Genshin.get, hc, hw, hpd]
    | false =>
      rw [hpd] at hpre
      simp only [Bool.false_or] at hpre
      cases w with
      | none => simp at hpre
      | some m =>
        simp only [Option.getD_some] at hpre
        subst hpre
        simp [Genshin.get, hc, hw, hpd]
  have hafter : ∀ tr3, Genshin.telemetry_and_final ctx d
      (List.filterMap (Genshin.voicePick ctx) ctx.selectedVoices) tr3
      = .ok (if d.isPredownload
             then Genshin.State.predownloadAvailable d (Genshin.expectedPredownloadVoices ctx)
             else Genshin.State.launch, tr3 ++ [Genshin.Event.queryTelemetry]) := by
    intro tr3
    simp only [Genshin.telemetry_and_final, htel, Bool.not_true, Bool.false_eq_true, if_false]
    cases d with
    | latest v => simp [Genshin.VersionDiff.isPredownload, Genshin.expectedPredownloadVoices]
    | predownload j => simp [Genshin.VersionDiff.isPredownload, Genshin.expectedPredownloadVoices]
    | diff j => simp [Genshin.VersionDiff.continues] at hdc
    | outdated j => simp [Genshin.VersionDiff.continues] at hdc
    | notInstalled j => simp [Genshin.VersionDiff.continues] at hdc
  unfold Genshin.resultState
  rw [hpass]
  cases d with
  | latest v =>
    obtain ⟨tr1, htr1⟩ := hloop [] ([Genshin.Event.statusGame] ++ [Genshin.Event.queryGameDiff])
    simp only [Genshin.game_and_later, hd, htr1, hs, List.nil_append]
    cases hup : ctx.usePatch with
    | true =>
      obtain ⟨pp, hpp, happ⟩ := hpatch hup
      simp [hpp, happ, hafter, Except.map]
    | false =>
      simp [hafter, Except.map]
  | predownload j =>
    obtain ⟨tr1, htr1⟩ := hloop [] ([Genshin.Event.statusGame] ++ [Genshin.Event.queryGameDiff])
    simp only [Genshin.game_and_later, hd, htr1, hs, List.nil_append]
    cases hup : ctx.usePatch with
    | true =>
      obtain ⟨pp, hpp, happ⟩ := hpatch hup
      simp [hpp, happ, hafter, Except.map]
    | false =>
      simp [hafter, Except.map]
  | diff j => simp [Genshin.VersionDiff.continues] at hdc
  | outdated j => simp [Genshin.VersionDiff.continues] at hdc
  | notInstalled j => simp [Genshin.VersionDiff.continues] at hdc

/-- C2 witness: the theorem applied to the Scenario E context: game
diff Predownload, voice 0 Predownload, voice 1 Latest, patch applied,
telemetry disabled, giving PredownloadAvailable with exactly the one
Predownload voice diff. -/
theorem c2_final_decision_witness :
    Genshin.resultState exGenshinPredownloadCtx
      = .ok (.predownloadAvailable (.predownload 4) [.predownload 9]) := by
  have h := c2_final_decision exGenshinPredownloadCtx (some false) (.predownload 4)
    rfl rfl rfl rfl rfl
    (by intro l hl
        fin_cases hl
        · exact ⟨rfl, rfl, .predownload 9, rfl, rfl⟩
        · exact ⟨rfl, rfl, .latest 5, rfl, rfl⟩)
    ⟨none, rfl⟩
    (fun _ => ⟨{ data := 3, applied := .ok true }, rfl, rfl⟩)
    rfl
  simpa using h

/-- C8: once every earlier check passes, the honkai resolver returns
TelemetryNotDisabled exactly when telemetry is not treated as disabled
and the context does not ignore telemetry; a telemetry lookup error or
an unresolved domain is treated as disabled, so the check fails open
and passes. -/
theorem c8_telemetry_fail_open (ctx : Honkai.Ctx) (w : Option Bool) (v : Nat)
    (m : Honkai.Metadata) (iv : Nat)
    (hc : ctx.configGet = .ok ())
    (hw : ctx.selectedWine = .ok w)
    (hpre : (ctx.prefixHasDriveC || w.getD false) = true)
    (hd : ctx.gameDiff = .ok (.latest v))
    (hmf : ctx.applyMfplat = true → ctx.mfplatApplied = .ok true)
    (hj : ctx.jadeiteInstalled = true)
    (hm : ctx.metadata = .ok m)
    (hiv : ctx.installedVersion = .ok iv)
    (hle : m.version ≤ iv) :
    ((Honkai.get ctx = .ok .telemetryNotDisabled)
      ↔ (Honkai.telemetryDisabled ctx = false ∧ ctx.telemetryIgnored = false))
    ∧ (∀ e, ctx.telemetry = .error e → Honkai.telemetryDisabled ctx = true)
    ∧ (ctx.telemetry = .ok none → Honkai.telemetryDisabled ctx = true) := by
  have hnotgt : ¬ (m.version > iv) := Nat.not_lt.mpr hle
  have hget : Honkai.get ctx = Honkai.after_mfplat ctx v := by
    cases hap : ctx.applyMfplat with
    | true =>
      have hmfa := hmf hap
      cases hpd : ctx.prefixHasDriveC with
      | true => simp [Honkai.get, hc, hw, hd, hap, hmfa, hpd]
      | false =>
        rw [hpd] at hpre
        simp only [Bool.false_or] at hpre
        cases w with
        | none => simp at hpre
        | some mm =>
          simp only [Option.getD_some] at hpre
          subst hpre
          simp [Honkai.get, hc, hw, hd, hap, hmfa, hpd]
    | false =>
      cases hpd : ctx.prefixHasDriveC with
      | true => simp [Honkai.get, hc, hw, hd, hap, hpd]
      | false =>
        rw [hpd] at hpre
        simp only [Bool.false_or] at hpre
        cases w with
        | none => simp at hpre
        | some mm =>
          simp only [Option.getD_some] at hpre
          subst hpre
          simp [Honkai.get, hc, hw, hd, hap, hpd]
  refine ⟨?_, ?_, ?_⟩
  · rw [hget]
    simp only [Honkai.after_mfplat, hj, hm, hiv, hnotgt, Bool.not_true, Bool.false_eq_true,
      if_false, if_neg hnotgt]
    cases hdis : Honkai.telemetryDisabled ctx with
    | false =>
      cases hig : ctx.telemetryIgnored with
      | false => simp
      | true =>
        simp only [Bool.not_true, Bool.and_false, Bool.false_eq_true, if_false]
        cases hst : m.status v <;> simp
    | true =>
      simp only [Bool.not_true, Bool.false_and, Bool.false_eq_true, if_false]
      cases hst : m.status v <;> simp
  · intro e he
    simp [Honkai.telemetryDisabled, he]
  · intro he
    simp [Honkai.telemetryDisabled, he]

/-- C8 witness: in the concrete context where telemetry resolves and is
not ignored, the resolver returns TelemetryNotDisabled. -/
theorem c8_telemetry_witness :
    Honkai.get exHonkaiTelemetryCtx = .ok .telemetryNotDisabled :=
  (c8_telemetry_fail_open exHonkaiTelemetryCtx (some false) 12
      { version := 5, status := fun _ => .verified } 5
      rfl rfl rfl rfl (fun _ => rfl) rfl rfl rfl (Nat.le_refl 5)).1.mpr ⟨rfl, rfl⟩
